import Mathlib

/-!
Verification development for the camera-mirror page
(`src/routes/camera/+page.svelte`).

The page script is a single-threaded, event-driven program mutating a fixed
set of module-level handles (media stream, audio element, audio context,
analyser node, UI flags).  We embed it as a state machine: the record
`PageState` holds every mutable handle of the script, operations are
translated function-by-function from the source, and each operation also
emits a trace of externally visible resource events (context create/close,
track stop, playback pause/play, acquisition) so that ordering and
exactly-once properties can be stated.

Asynchronous results (`getUserMedia` resolution, `play()` resolution) are
passed in as explicit boolean oracles; per the single-threaded event-loop
model each handler runs to completion, so an operation together with its
promise callbacks is embedded as one big-step function.

Ghost fields (`oldElems`, `oldCtxs`, `streams`) record every audio element,
audio context and media stream ever created, including ones the script has
dropped its reference to, so that "at most one live context / one active
playback instance" are statements about all resources, not just the
currently referenced ones.
-/

namespace CameraMirror

/-- A reference to a playable stream: either the raw captured `MediaStream`
(identified by its index in the ghost list of acquired streams) or the
`MediaStreamAudioDestinationNode.stream` of the delay graph built inside
audio context `cid`. -/
inductive StreamRef where
  | raw (sid : Nat)
  | graphOut (cid : Nat)
deriving DecidableEq, Repr

/-- The `HTMLAudioElement` used for monitoring playback: `srcObject`,
playing flag (true between a resolved `play()` and the next `pause()`),
`currentTime`, `muted`, `volume`. -/
structure AudioElem where
  src : Option StreamRef
  playing : Bool
  currentTime : Nat
  muted : Bool
  volume : ℚ
deriving DecidableEq, Repr

/-- The `<video>` element: `srcObject` and playing flag. -/
structure VideoElem where
  src : Option StreamRef
  playing : Bool
deriving DecidableEq, Repr

/-- The node graph built inside an `AudioContext` by `updateAudioDelay`:
the delay node value (seconds) and the three `connect` edges
source→delay, delay→destination, source→destination. -/
structure AudioGraph where
  delayTime : ℚ
  srcToDelay : Bool
  delayToDest : Bool
  srcToDest : Bool
deriving DecidableEq, Repr

/-- An `AudioContext`: identity, closed flag, the monitoring graph built in
it (if any), and whether an `AnalyserNode` was created in it. -/
structure Ctx where
  id : Nat
  closed : Bool
  graph : Option AudioGraph
  hasAnalyser : Bool
deriving DecidableEq, Repr

/-- Externally visible resource events, used to state ordering and
exactly-once properties of the operations. -/
inductive Ev where
  | videoPause
  | playbackPause
  | playbackDetach
  | playbackPlay (ok : Bool)
  | trackStop (sid : Nat)
  | ctxCreate (cid : Nat)
  | ctxClose (cid : Nat)
  | graphBuild (cid : Nat) (delayMs : Nat)
  | acquireStart
  | acquireDone (ok : Bool)
  | cancelAnim
deriving DecidableEq, Repr

/-- The module-level mutable state of the page script, plus ghost lists of
all contexts (`oldCtxs`: contexts whose reference was dropped), all
acquired raw streams (`streams`: entry true while its tracks are live) and
all dropped audio elements (`oldElems`). -/
structure PageState where
  videoElement : Option VideoElem
  audioContext : Option Ctx
  analyser : Option Nat
  stream : Option Nat
  audioElement : Option AudioElem
  isStreaming : Bool
  hasPermission : Bool
  errorMessage : String
  micLevel : ℚ
  availableMics : List String
  selectedMicId : String
  audioEnabled : Bool
  audioDelay : Nat
  animationFrame : Bool
  canvasBars : List Nat
  nextCtxId : Nat
  oldCtxs : List Ctx
  streams : List Bool
  oldElems : List AudioElem
deriving DecidableEq, Repr

/-- The state at script load: every handle unset. -/
def initState : PageState where
  videoElement := none
  audioContext := none
  analyser := none
  stream := none
  audioElement := none
  isStreaming := false
  hasPermission := false
  errorMessage := ""
  micLevel := 0
  availableMics := []
  selectedMicId := ""
  audioEnabled := false
  audioDelay := 0
  animationFrame := false
  canvasBars := []
  nextCtxId := 0
  oldCtxs := []
  streams := []
  oldElems := []

/-- `getErrorMessage` (source lines 325-335): maps a DOMException name to a
user-facing message. -/
def getErrorMessage (name : String) : String :=
  if name = "NotAllowedError" then
    "Camera and microphone access was denied. Please allow access in your browser settings."
  else if name = "NotFoundError" then
    "No camera or microphone found. Please connect a device and try again."
  else if name = "NotReadableError" then
    "Camera or microphone is already in use by another application."
  else
    "Error accessing camera or microphone. Please check your device permissions."

/-- The guarded close of the existing context in `updateAudioDelay`
(source lines 164-167): `if (audioContext.state !== 'closed')
audioContext.close()`.  Closing an already-closed context is a no-op. -/
def closeGuarded (c : Ctx) : Ctx × List Ev :=
  if c.closed then (c, []) else ({ c with closed := true }, [Ev.ctxClose c.id])

/-- The delay-graph construction of `updateAudioDelay` for `audioDelay > 0`
(source lines 158-186): create a context if the handle is unset, close the
referenced context if it is not yet closed, create a fresh context, build
source → delay(`d`/1000 s) → destination plus the parallel direct
source → destination edge, and point the audio element at the destination
stream.  `e1` is the already paused-and-reset audio element. -/
def buildDelayGraph (s : PageState) (e1 : AudioElem) (d : Nat) : PageState × List Ev :=
  let step1 : PageState × List Ev × Ctx :=
    match s.audioContext with
    | none =>
        ({ s with nextCtxId := s.nextCtxId + 1 },
         [Ev.ctxCreate s.nextCtxId],
         { id := s.nextCtxId, closed := false, graph := none, hasAnalyser := false })
    | some c => (s, [], c)
  let s1 := step1.1
  let t1 := step1.2.1
  let c1 := step1.2.2
  let closed := closeGuarded c1
  let g : AudioGraph :=
    { delayTime := (d : ℚ) / 1000, srcToDelay := true, delayToDest := true, srcToDest := true }
  let cNew : Ctx := { id := s1.nextCtxId, closed := false, graph := some g, hasAnalyser := false }
  ({ s1 with
      audioContext := some cNew,
      nextCtxId := s1.nextCtxId + 1,
      oldCtxs := s1.oldCtxs ++ [closed.1],
      audioElement := some { e1 with src := some (StreamRef.graphOut cNew.id) } },
   t1 ++ closed.2 ++ [Ev.ctxCreate cNew.id, Ev.graphBuild cNew.id d])

/-- `updateAudioDelay` (source lines 149-203): early return unless both
the audio element and the stream exist; pause and reset the element; for
`audioDelay > 0` rebuild the delay graph and attach its output, otherwise
attach the raw stream; if monitoring is enabled, call `play()` again
(`resumeOk` is the resolution of that promise; its rejection handler only
logs). -/
def updateAudioDelay (s : PageState) (resumeOk : Bool) : PageState × List Ev :=
  match s.audioElement, s.stream with
  | some e0, some sid =>
      let e1 : AudioElem := { e0 with playing := false, currentTime := 0 }
      let built : PageState × List Ev :=
        if 0 < s.audioDelay then buildDelayGraph s e1 s.audioDelay
        else ({ s with audioElement := some { e1 with src := some (StreamRef.raw sid) } }, [])
      let resumed : PageState × List Ev :=
        if s.audioEnabled then
          (match built.1.audioElement with
           | some e2 => { built.1 with audioElement := some { e2 with playing := resumeOk } }
           | none => built.1,
           [Ev.playbackPlay resumeOk])
        else (built.1, [])
      (resumed.1, [Ev.playbackPause] ++ built.2 ++ resumed.2)
  | _, _ => (s, [])

/-- `toggleAudio` (source lines 124-147): early return unless both the
audio element and the stream exist; when enabled, pause, reset and detach
the element and clear the flag; when disabled, run `updateAudioDelay` and
then `play()`, setting the flag from the promise outcome `playOk`. -/
def toggleAudio (s : PageState) (playOk : Bool) : PageState × List Ev :=
  match s.audioElement, s.stream with
  | some e, some _ =>
      if s.audioEnabled then
        ({ s with
            audioElement := some { e with playing := false, currentTime := 0, src := none },
            audioEnabled := false },
         [Ev.playbackPause, Ev.playbackDetach])
      else
        let upd := updateAudioDelay s playOk
        (match upd.1.audioElement with
         | some e1 =>
             { upd.1 with audioElement := some { e1 with playing := playOk },
                          audioEnabled := playOk }
         | none => { upd.1 with audioEnabled := playOk },
         upd.2 ++ [Ev.playbackPlay playOk])
  | _, _ => (s, [])

/-- `setupAudioPlayback` (source lines 99-122): create a fresh audio
element (the previous one, if any, is dropped into the ghost list without
being stopped), attach the raw stream `sid`, unmute, set volume 0.8, and
attempt `play()`; the promise handlers set `audioEnabled` from the outcome
`playOk`. -/
def setupAudioPlayback (s : PageState) (sid : Nat) (playOk : Bool) : PageState × List Ev :=
  let dropped :=
    match s.audioElement with
    | some e => s.oldElems ++ [e]
    | none => s.oldElems
  ({ s with
      audioElement := some
        { src := some (StreamRef.raw sid), playing := playOk, currentTime := 0,
          muted := false, volume := (4 : ℚ) / 5 },
      oldElems := dropped,
      audioEnabled := playOk },
   [Ev.playbackPlay playOk])

/-- `setupAudioAnalyser` (source lines 205-216): create an audio context if
the handle is unset, then create an `AnalyserNode` (fftSize 256) in it and
connect the raw stream source to it. -/
def setupAudioAnalyser (s : PageState) : PageState × List Ev :=
  match s.audioContext with
  | none =>
      let c : Ctx := { id := s.nextCtxId, closed := false, graph := none, hasAnalyser := true }
      ({ s with audioContext := some c, nextCtxId := s.nextCtxId + 1, analyser := some c.id },
       [Ev.ctxCreate c.id])
  | some c =>
      ({ s with audioContext := some { c with hasAnalyser := true }, analyser := some c.id }, [])

/-- `requestPermissions` (source lines 68-97): call `getUserMedia`
(`acqOk` is its resolution; `errName` the DOMException name on failure).
On success: record the fresh live stream, set the permission flag, clear
the error, attach the stream to the video element if it is bound, then run
`setupAudioPlayback` and `setupAudioAnalyser`.  On failure: set the error
message and clear the permission flag, leaving everything else as it was. -/
def requestPermissions (s : PageState) (acqOk : Bool) (errName : String) (playOk : Bool) :
    PageState × List Ev :=
  if acqOk then
    let sid := s.streams.length
    let s1 : PageState :=
      { s with
          streams := s.streams ++ [true], stream := some sid,
          hasPermission := true, errorMessage := "",
          videoElement := s.videoElement.map fun v => { v with src := some (StreamRef.raw sid) } }
    let afterPlayback := setupAudioPlayback s1 sid playOk
    let afterAnalyser := setupAudioAnalyser afterPlayback.1
    (afterAnalyser.1,
     [Ev.acquireStart, Ev.acquireDone true] ++ afterPlayback.2 ++ afterAnalyser.2)
  else
    ({ s with errorMessage := getErrorMessage errName, hasPermission := false },
     [Ev.acquireStart, Ev.acquireDone false])

/-- `stopStream` (source lines 274-298): pause and detach the video
element; pause, reset and detach the audio element; stop all tracks of the
captured stream; close the audio context and clear its handle (dropping it
into the ghost list); clear the streaming and audio flags and the level.
Note the source order: playback is stopped, then tracks, then the context;
the `analyser` handle and the `stream` handle are left untouched. -/
def stopStream (s : PageState) : PageState × List Ev :=
  ({ s with
      videoElement := s.videoElement.map fun v => { v with playing := false, src := none },
      audioElement := s.audioElement.map fun e =>
        { e with playing := false, currentTime := 0, src := none },
      streams :=
        match s.stream with
        | some sid => s.streams.set sid false
        | none => s.streams,
      audioContext := none,
      oldCtxs := s.oldCtxs ++
        (match s.audioContext with
         | some c => [{ c with closed := true }]
         | none => []),
      isStreaming := false, audioEnabled := false, micLevel := 0 },
   s.videoElement.elim [] (fun _ => [Ev.videoPause])
   ++ s.audioElement.elim [] (fun _ => [Ev.playbackPause, Ev.playbackDetach])
   ++ (match s.stream with
       | some sid => [Ev.trackStop sid]
       | none => [])
   ++ s.audioContext.elim [] (fun c => [Ev.ctxClose c.id]))

/-- `onDestroy` (source lines 36-45): run `stopStream`, then cancel the
animation frame if one was ever scheduled (the variable itself is not
reset by the source). -/
def onDestroy (s : PageState) : PageState × List Ev :=
  let stopped := stopStream s
  if s.animationFrame then (stopped.1, stopped.2 ++ [Ev.cancelAnim]) else stopped

/-- `switchMicrophone` (source lines 300-305): only if a stream was
acquired, run `stopStream` to completion and then `requestPermissions`. -/
def switchMicrophone (s : PageState) (acqOk : Bool) (errName : String) (playOk : Bool) :
    PageState × List Ev :=
  match s.stream with
  | some _ =>
      let stopped := stopStream s
      let reacq := requestPermissions stopped.1 acqOk errName playOk
      (reacq.1, stopped.2 ++ reacq.2)
  | none => (s, [])

/-- `startStream` (source lines 266-272): if both stream and video element
exist, attach and play the video and set the streaming flag. -/
def startStream (s : PageState) : PageState × List Ev :=
  match s.stream, s.videoElement with
  | some sid, some v =>
      ({ s with
          videoElement := some { v with src := some (StreamRef.raw sid), playing := true },
          isStreaming := true }, [])
  | _, _ => (s, [])

/-- `getAudioDevices` (source lines 54-66): store the enumerated audio
inputs and default-select the first one when none is selected. -/
def getAudioDevices (s : PageState) (mics : List String) : PageState :=
  if 0 < mics.length ∧ s.selectedMicId = "" then
    { s with availableMics := mics, selectedMicId := mics.headD "" }
  else
    { s with availableMics := mics }

/-- One tick of the `draw` callback in `startAudioLevelVisualization`
(source lines 218-264): when no analyser is attached the callback returns
without touching anything; otherwise it reads the 128 frequency bins
(`data` is the byte frequency data supplied by the environment, padded or
truncated to the fixed bin count), sets `micLevel` to mean(bins)/255,
redraws the bars, and schedules the next frame. -/
def drawTick (s : PageState) (data : List Nat) : PageState :=
  match s.analyser with
  | none => s
  | some _ =>
      let arr := (data ++ List.replicate 128 0).take 128
      { s with
          micLevel := ((arr.sum : ℚ) / 128) / 255,
          canvasBars := arr,
          animationFrame := true }

/-- `onMount` (source lines 24-34): enumerate devices, request
permissions, then start the visualization loop (whose first `draw` call
runs immediately and only schedules further frames when an analyser
exists). -/
def mount (s : PageState) (mics : List String) (acqOk : Bool) (errName : String)
    (playOk : Bool) (data : List Nat) : PageState × List Ev :=
  let s1 := getAudioDevices s mics
  let acq := requestPermissions s1 acqOk errName playOk
  (drawTick acq.1 data, acq.2)

/-- The user/environment events the page reacts to, with the guards the
markup imposes (a hidden or `disabled` control cannot fire its handler):
the permission button renders only while `!hasPermission` (line 499); the
toggle button and the delay slider render only when microphones were
enumerated (line 529) and the slider is additionally `disabled` while
`!hasPermission || audioEnabled` (line 555); the toggle button is
`disabled` while `!hasPermission` (line 571); start/stop render according
to `hasPermission`/`isStreaming` (lines 506-520). -/
inductive Act where
  | clickEnable (acqOk : Bool) (errName : String) (playOk : Bool)
  | clickToggle (playOk : Bool)
  | slideDelay (d : Nat)
  | selectMic (mid : String) (acqOk : Bool) (errName : String) (playOk : Bool)
  | clickStart
  | clickStop
  | tick (data : List Nat)
  | bindVideo
  | destroy

/-- One guarded step of the page in response to an event, run to
completion together with the continuations of the promises its handler
awaits.  This is the serialized schedule: each asynchronous acquisition
finishes before the next event fires.  The page itself also admits
interleavings at the suspension point inside `requestPermissions` (the
`await getUserMedia`); those are modelled separately by `astep` and
`AsyncReachable` below, where the enable request and its continuation are
two separate transitions. -/
def step (s : PageState) (a : Act) : PageState × List Ev :=
  match a with
  | .clickEnable acqOk errName playOk =>
      if s.hasPermission then (s, []) else requestPermissions s acqOk errName playOk
  | .clickToggle playOk =>
      if s.hasPermission = true ∧ s.availableMics ≠ [] then toggleAudio s playOk else (s, [])
  | .slideDelay d =>
      if s.hasPermission = true ∧ s.availableMics ≠ [] ∧ s.audioEnabled = false ∧ d ≤ 1000 then
        updateAudioDelay { s with audioDelay := d } true
      else (s, [])
  | .selectMic mid acqOk errName playOk =>
      if s.availableMics ≠ [] then
        switchMicrophone { s with selectedMicId := mid } acqOk errName playOk
      else (s, [])
  | .clickStart =>
      if s.hasPermission = true ∧ s.isStreaming = false then startStream s else (s, [])
  | .clickStop =>
      if s.hasPermission = true ∧ s.isStreaming = true then stopStream s else (s, [])
  | .tick data => (drawTick s data, [])
  | .bindVideo =>
      if s.hasPermission = true ∧ s.videoElement = none then
        ({ s with videoElement := some { src := none, playing := false } }, [])
      else (s, [])
  | .destroy => onDestroy s

/-- The states the page can be in under the serialized schedule (each
permission request completes before the next event): the load state, any
state produced by `onMount`, and everything reachable from those through
guarded events.  `AsyncReachable` below extends this with the
interleavings admitted by the acquisition suspension point. -/
inductive Reachable : PageState → Prop where
  | init : Reachable initState
  | mounted (mics : List String) (acqOk : Bool) (errName : String) (playOk : Bool)
      (data : List Nat) :
      Reachable (mount initState mics acqOk errName playOk data).1
  | next (s : PageState) (a : Act) : Reachable s → Reachable (step s a).1

/-- The continuation of `requestPermissions` after the `await getUserMedia`
suspension point (source lines 78-96): everything `requestPermissions`
does once the promise settles.  Nothing in the source mutates state before
that `await`, so `requestPermissions` is the acquisition request followed
by this continuation (`requestPermissions_eq_continue`). -/
def acqContinue (s : PageState) (acqOk : Bool) (errName : String) (playOk : Bool) :
    PageState × List Ev :=
  if acqOk then
    let sid := s.streams.length
    let s1 : PageState :=
      { s with
          streams := s.streams ++ [true], stream := some sid,
          hasPermission := true, errorMessage := "",
          videoElement := s.videoElement.map fun v => { v with src := some (StreamRef.raw sid) } }
    let afterPlayback := setupAudioPlayback s1 sid playOk
    let afterAnalyser := setupAudioAnalyser afterPlayback.1
    (afterAnalyser.1,
     [Ev.acquireDone true] ++ afterPlayback.2 ++ afterAnalyser.2)
  else
    ({ s with errorMessage := getErrorMessage errName, hasPermission := false },
     [Ev.acquireDone false])

/-- Actions whose source handler contains no awaited acquisition (those
two, `clickEnable` and `selectMic`, are the ones the asynchronous machine
either splits or leaves out). -/
def nonAcquiring : Act → Bool
  | Act.clickEnable _ _ _ => false
  | Act.selectMic _ _ _ _ => false
  | _ => true

/-- Page state together with the number of `getUserMedia` promises that
have been requested but whose continuation has not yet run. -/
structure AsyncState where
  page : PageState
  pendingAcq : Nat
deriving DecidableEq, Repr

/-- Transitions of the asynchronous machine: an enable request up to its
`await` (fired by `onMount` or by the permission button, which stays
rendered as long as `hasPermission` is false — the flag is only set inside
the continuation), the event-loop running one pending continuation, or any
other page event run to completion. -/
inductive AsyncAct where
  | enableRequest
  | acqResolve (ok : Bool) (errName : String) (playOk : Bool)
  | pageAct (a : Act)

/-- One transition of the asynchronous machine.  `enableRequest` performs
the synchronous prefix of `requestPermissions` (no state change before the
`await`) and leaves the acquisition pending; `acqResolve` runs one pending
continuation with the given promise outcomes. -/
def astep (t : AsyncState) (a : AsyncAct) : AsyncState × List Ev :=
  match a with
  | .enableRequest =>
      if t.page.hasPermission = false then
        ({ t with pendingAcq := t.pendingAcq + 1 }, [Ev.acquireStart])
      else (t, [])
  | .acqResolve ok errName playOk =>
      if 0 < t.pendingAcq then
        (⟨(acqContinue t.page ok errName playOk).1, t.pendingAcq - 1⟩,
         (acqContinue t.page ok errName playOk).2)
      else (t, [])
  | .pageAct a =>
      if nonAcquiring a = true then
        (⟨(step t.page a).1, t.pendingAcq⟩, (step t.page a).2)
      else (t, [])

/-- States of the page under the event-loop schedules that interleave at
the acquisition suspension point.  Every `AsyncReachable` state is
realizable by the page (the machine is a sound subset of its behaviours:
the `selectMic` suspension is simply not modelled). -/
inductive AsyncReachable : AsyncState → Prop where
  | init : AsyncReachable ⟨initState, 0⟩
  | next (t : AsyncState) (a : AsyncAct) :
      AsyncReachable t → AsyncReachable (astep t a).1

/-- An audio element is an active audible path while it is playing with a
stream attached. -/
def elemActive (e : AudioElem) : Bool :=
  e.playing && e.src.isSome

/-- Number of active playback instances across every audio element ever
created (the current one and all dropped ones). -/
def activeCount (s : PageState) : Nat :=
  (match s.audioElement with
   | some e => if elemActive e then 1 else 0
   | none => 0) + s.oldElems.countP elemActive

/-- Number of audio contexts, among every context ever created, that are
not closed. -/
def liveCtxCount (s : PageState) : Nat :=
  (match s.audioContext with
   | some c => if c.closed then 0 else 1
   | none => 0) + s.oldCtxs.countP (fun c => !c.closed)

/-- Events that belong to acquisition of a new media stream. -/
def isAcquireEv : Ev → Bool
  | .acquireStart => true
  | .acquireDone _ => true
  | _ => false

/-- Events that close an audio context. -/
def isCtxCloseEv : Ev → Bool
  | .ctxClose _ => true
  | _ => false

/-- Events that stop media stream tracks. -/
def isTrackStopEv : Ev → Bool
  | .trackStop _ => true
  | _ => false

/-- Checks the ordering the specification claims for teardown: no context
close may occur after a track stop (every graph release precedes every
track stop). -/
def closeBeforeStops (t : List Ev) : Bool :=
  ((t.dropWhile fun e => !isTrackStopEv e).all fun e => !isCtxCloseEv e)

/-! ### Shape lemmas for `updateAudioDelay` -/

theorem updateAudioDelay_noElem (s : PageState) (r : Bool) (h : s.audioElement = none) :
    updateAudioDelay s r = (s, []) := by
  simp [updateAudioDelay, h]

theorem updateAudioDelay_noStream (s : PageState) (r : Bool) (h : s.stream = none) :
    updateAudioDelay s r = (s, []) := by
  cases hA : s.audioElement <;> simp [updateAudioDelay, hA, h]

theorem updateAudioDelay_zero (s : PageState) (r : Bool) (e : AudioElem) (sid : Nat)
    (hA : s.audioElement = some e) (hS : s.stream = some sid)
    (hd : s.audioDelay = 0) (hEn : s.audioEnabled = false) :
    updateAudioDelay s r =
      ({ s with audioElement := some { e with
            playing := false, currentTime := 0,
            src := some (StreamRef.raw sid) } },
       [Ev.playbackPause]) := by
  simp [updateAudioDelay, hA, hS, hd, hEn]

theorem updateAudioDelay_pos_some (s : PageState) (r : Bool) (e : AudioElem) (sid : Nat)
    (c : Ctx) (hA : s.audioElement = some e) (hS : s.stream = some sid)
    (hc : s.audioContext = some c) (hcl : c.closed = false)
    (hd : 0 < s.audioDelay) (hEn : s.audioEnabled = false) :
    updateAudioDelay s r =
      ({ s with
          audioContext := some
            ⟨s.nextCtxId, false, some ⟨(s.audioDelay : ℚ) / 1000, true, true, true⟩, false⟩,
          nextCtxId := s.nextCtxId + 1,
          oldCtxs := s.oldCtxs ++ [{ c with closed := true }],
          audioElement := some { e with
            playing := false, currentTime := 0,
            src := some (StreamRef.graphOut s.nextCtxId) } },
       [Ev.playbackPause, Ev.ctxClose c.id, Ev.ctxCreate s.nextCtxId,
        Ev.graphBuild s.nextCtxId s.audioDelay]) := by
  simp [updateAudioDelay, buildDelayGraph, closeGuarded, hA, hS, hc, hcl, hd, hEn]

theorem updateAudioDelay_pos_none (s : PageState) (r : Bool) (e : AudioElem) (sid : Nat)
    (hA : s.audioElement = some e) (hS : s.stream = some sid)
    (hc : s.audioContext = none) (hd : 0 < s.audioDelay) (hEn : s.audioEnabled = false) :
    updateAudioDelay s r =
      ({ s with
          audioContext := some
            ⟨s.nextCtxId + 1, false, some ⟨(s.audioDelay : ℚ) / 1000, true, true, true⟩, false⟩,
          nextCtxId := s.nextCtxId + 2,
          oldCtxs := s.oldCtxs ++ [⟨s.nextCtxId, true, none, false⟩],
          audioElement := some { e with
            playing := false, currentTime := 0,
            src := some (StreamRef.graphOut (s.nextCtxId + 1)) } },
       [Ev.playbackPause, Ev.ctxCreate s.nextCtxId, Ev.ctxClose s.nextCtxId,
        Ev.ctxCreate (s.nextCtxId + 1), Ev.graphBuild (s.nextCtxId + 1) s.audioDelay]) := by
  simp [updateAudioDelay, buildDelayGraph, closeGuarded, hA, hS, hc, hd, hEn]

theorem updateAudioDelay_pos_some_closed (s : PageState) (r : Bool) (e : AudioElem)
    (sid : Nat) (c : Ctx) (hA : s.audioElement = some e) (hS : s.stream = some sid)
    (hc : s.audioContext = some c) (hcl : c.closed = true)
    (hd : 0 < s.audioDelay) (hEn : s.audioEnabled = false) :
    updateAudioDelay s r =
      ({ s with
          audioContext := some
            ⟨s.nextCtxId, false, some ⟨(s.audioDelay : ℚ) / 1000, true, true, true⟩, false⟩,
          nextCtxId := s.nextCtxId + 1,
          oldCtxs := s.oldCtxs ++ [c],
          audioElement := some { e with
            playing := false, currentTime := 0,
            src := some (StreamRef.graphOut s.nextCtxId) } },
       [Ev.playbackPause, Ev.ctxCreate s.nextCtxId,
        Ev.graphBuild s.nextCtxId s.audioDelay]) := by
  simp [updateAudioDelay, buildDelayGraph, closeGuarded, hA, hS, hc, hcl, hd, hEn]

theorem updateAudioDelay_pos_some_enabled (s : PageState) (r : Bool) (e : AudioElem)
    (sid : Nat) (c : Ctx) (hA : s.audioElement = some e) (hS : s.stream = some sid)
    (hc : s.audioContext = some c) (hcl : c.closed = false)
    (hd : 0 < s.audioDelay) (hEn : s.audioEnabled = true) :
    updateAudioDelay s r =
      ({ s with
          audioContext := some
            ⟨s.nextCtxId, false, some ⟨(s.audioDelay : ℚ) / 1000, true, true, true⟩, false⟩,
          nextCtxId := s.nextCtxId + 1,
          oldCtxs := s.oldCtxs ++ [{ c with closed := true }],
          audioElement := some { e with
            playing := r, currentTime := 0,
            src := some (StreamRef.graphOut s.nextCtxId) } },
       [Ev.playbackPause, Ev.ctxClose c.id, Ev.ctxCreate s.nextCtxId,
        Ev.graphBuild s.nextCtxId s.audioDelay, Ev.playbackPlay r]) := by
  simp [updateAudioDelay, buildDelayGraph, closeGuarded, hA, hS, hc, hcl, hd, hEn]

theorem updateAudioDelay_zero_enabled (s : PageState) (r : Bool) (e : AudioElem) (sid : Nat)
    (hA : s.audioElement = some e) (hS : s.stream = some sid)
    (hd : s.audioDelay = 0) (hEn : s.audioEnabled = true) :
    updateAudioDelay s r =
      ({ s with audioElement := some { e with
            playing := r, currentTime := 0,
            src := some (StreamRef.raw sid) } },
       [Ev.playbackPause, Ev.playbackPlay r]) := by
  simp [updateAudioDelay, hA, hS, hd, hEn]

/-! ### The state invariant -/

/-- Invariant maintained by every reachable state: dropped audio elements
are never active; without permission the current element is inactive;
the enabled flag means the current element is an active path; the
referenced context is never closed; every dropped context is closed; while
no analyser is attached the level and the drawn bars are zero; and the
stream handle indexes the ghost stream list. -/
def Inv (s : PageState) : Prop :=
  (∀ e ∈ s.oldElems, elemActive e = false) ∧
  (s.hasPermission = false → ∀ e, s.audioElement = some e → elemActive e = false) ∧
  (s.audioEnabled = true → ∃ e, s.audioElement = some e ∧ elemActive e = true) ∧
  (∀ c, s.audioContext = some c → c.closed = false) ∧
  (∀ c ∈ s.oldCtxs, c.closed = true) ∧
  (s.analyser = none → s.micLevel = 0 ∧ ∀ b ∈ s.canvasBars, b = 0) ∧
  (∀ sid, s.stream = some sid → sid < s.streams.length)

theorem inv_initState : Inv initState := by
  refine ⟨?_, ?_, ?_, ?_, ?_, ?_, ?_⟩ <;> simp [initState]

/-! ### Field projections of `stopStream` and small helpers -/

@[simp] theorem stopStream_audioContext (s : PageState) :
    (stopStream s).1.audioContext = none := rfl

@[simp] theorem stopStream_audioEnabled (s : PageState) :
    (stopStream s).1.audioEnabled = false := rfl

@[simp] theorem stopStream_analyser (s : PageState) :
    (stopStream s).1.analyser = s.analyser := rfl

@[simp] theorem stopStream_micLevel (s : PageState) :
    (stopStream s).1.micLevel = 0 := rfl

@[simp] theorem stopStream_stream (s : PageState) :
    (stopStream s).1.stream = s.stream := rfl

@[simp] theorem stopStream_oldElems (s : PageState) :
    (stopStream s).1.oldElems = s.oldElems := rfl

@[simp] theorem stopStream_hasPermission (s : PageState) :
    (stopStream s).1.hasPermission = s.hasPermission := rfl

@[simp] theorem stopStream_canvasBars (s : PageState) :
    (stopStream s).1.canvasBars = s.canvasBars := rfl

@[simp] theorem stopStream_audioElement (s : PageState) :
    (stopStream s).1.audioElement =
      s.audioElement.map fun e => { e with playing := false, currentTime := 0, src := none } :=
  rfl

@[simp] theorem stopStream_oldCtxs (s : PageState) :
    (stopStream s).1.oldCtxs =
      s.oldCtxs ++
        (match s.audioContext with
         | some c => [{ c with closed := true }]
         | none => []) := rfl

@[simp] theorem stopStream_streams (s : PageState) :
    (stopStream s).1.streams =
      (match s.stream with
       | some sid => s.streams.set sid false
       | none => s.streams) := rfl

theorem onDestroy_fst (s : PageState) : (onDestroy s).1 = (stopStream s).1 := by
  unfold onDestroy
  split <;> rfl

/-! ### Invariant preservation -/

/-- `Inv` only depends on the listed fields, so any operation leaving them
unchanged preserves it. -/
theorem inv_of_eq_fields (s t : PageState)
    (hE : t.audioElement = s.audioElement) (hOE : t.oldElems = s.oldElems)
    (hP : t.hasPermission = s.hasPermission) (hEn : t.audioEnabled = s.audioEnabled)
    (hC : t.audioContext = s.audioContext) (hOC : t.oldCtxs = s.oldCtxs)
    (hA : t.analyser = s.analyser) (hM : t.micLevel = s.micLevel)
    (hB : t.canvasBars = s.canvasBars) (hS : t.stream = s.stream)
    (hSt : t.streams = s.streams) (h : Inv s) : Inv t := by
  obtain ⟨h1, h2, h3, h4, h5, h6, h7⟩ := h
  refine ⟨?_, ?_, ?_, ?_, ?_, ?_, ?_⟩
  · rw [hOE]; exact h1
  · rw [hP, hE]; exact h2
  · rw [hEn, hE]; exact h3
  · rw [hC]; exact h4
  · rw [hOC]; exact h5
  · rw [hA, hM, hB]; exact h6
  · rw [hS, hSt]; exact h7

theorem inv_stopStream (s : PageState) (h : Inv s) : Inv (stopStream s).1 := by
  obtain ⟨h1, h2, h3, h4, h5, h6, h7⟩ := h
  refine ⟨?_, ?_, ?_, ?_, ?_, ?_, ?_⟩
  · simpa using h1
  · intro _ e he
    rcases hA : s.audioElement with _ | e0 <;> simp [hA] at he
    subst he
    simp [elemActive]
  · simp
  · simp
  · intro c hc
    simp only [stopStream_oldCtxs, List.mem_append] at hc
    rcases hc with hc | hc
    · exact h5 c hc
    · rcases hC : s.audioContext with _ | c0 <;> simp [hC] at hc
      subst hc
      rfl
  · intro ha
    simp only [stopStream_analyser] at ha
    exact ⟨rfl, by simpa using (h6 ha).2⟩
  · intro sid hsid
    simp only [stopStream_stream] at hsid
    simp only [stopStream_streams]
    rw [hsid, List.length_set]
    exact h7 sid hsid

theorem drawTick_none (s : PageState) (data : List Nat) (hA : s.analyser = none) :
    drawTick s data = s := by
  unfold drawTick
  rw [hA]

theorem drawTick_some (s : PageState) (data : List Nat) (cid : Nat)
    (hA : s.analyser = some cid) :
    drawTick s data =
      { s with
          micLevel := ((((data ++ List.replicate 128 0).take 128).sum : ℚ) / 128) / 255,
          canvasBars := (data ++ List.replicate 128 0).take 128,
          animationFrame := true } := by
  unfold drawTick
  rw [hA]

theorem inv_drawTick (s : PageState) (data : List Nat) (h : Inv s) : Inv (drawTick s data) := by
  obtain ⟨h1, h2, h3, h4, h5, h6, h7⟩ := h
  rcases hA : s.analyser with _ | cid
  · rw [drawTick_none s data hA]
    exact ⟨h1, h2, h3, h4, h5, h6, h7⟩
  · rw [drawTick_some s data cid hA]
    refine ⟨h1, h2, h3, h4, h5, ?_, h7⟩
    intro hNone
    simp [hA] at hNone

theorem inv_getAudioDevices (s : PageState) (mics : List String) (h : Inv s) :
    Inv (getAudioDevices s mics) := by
  refine inv_of_eq_fields s _ ?_ ?_ ?_ ?_ ?_ ?_ ?_ ?_ ?_ ?_ ?_ h <;>
    (unfold getAudioDevices; split <;> rfl)

theorem inv_startStream (s : PageState) (h : Inv s) : Inv (startStream s).1 := by
  refine inv_of_eq_fields s _ ?_ ?_ ?_ ?_ ?_ ?_ ?_ ?_ ?_ ?_ ?_ h <;>
    (unfold startStream
     rcases hS : s.stream with _ | sid <;> rcases hV : s.videoElement with _ | v <;>
       simp [hS, hV])

theorem inv_updateAudioDelay (s : PageState) (r : Bool) (hEn : s.audioEnabled = false)
    (h : Inv s) : Inv (updateAudioDelay s r).1 := by
  obtain ⟨h1, h2, h3, h4, h5, h6, h7⟩ := h
  rcases hA : s.audioElement with _ | e
  · rw [updateAudioDelay_noElem s r hA]
    exact ⟨h1, h2, h3, h4, h5, h6, h7⟩
  rcases hS : s.stream with _ | sid
  · rw [updateAudioDelay_noStream s r hS]
    exact ⟨h1, h2, h3, h4, h5, h6, h7⟩
  rcases hd : s.audioDelay with _ | d
  · rw [updateAudioDelay_zero s r e sid hA hS hd hEn]
    refine ⟨h1, ?_, ?_, h4, h5, h6, h7⟩
    · intro _ e2 he2
      simp only [Option.some.injEq] at he2
      subst he2
      simp [elemActive]
    · simp [hEn]
  rcases hC : s.audioContext with _ | c
  · rw [updateAudioDelay_pos_none s r e sid hA hS hC (by rw [hd]; exact Nat.succ_pos d) hEn]
    refine ⟨h1, ?_, ?_, ?_, ?_, h6, h7⟩
    · intro _ e2 he2
      simp only [Option.some.injEq] at he2
      subst he2
      simp [elemActive]
    · simp [hEn]
    · intro c2 hc2
      simp only [Option.some.injEq] at hc2
      subst hc2
      rfl
    · intro c2 hc2
      rcases List.mem_append.mp hc2 with hm | hm
      · exact h5 c2 hm
      · simp only [List.mem_singleton] at hm
        subst hm
        rfl
  · rw [updateAudioDelay_pos_some s r e sid c hA hS hC (h4 c hC)
        (by rw [hd]; exact Nat.succ_pos d) hEn]
    refine ⟨h1, ?_, ?_, ?_, ?_, h6, h7⟩
    · intro _ e2 he2
      simp only [Option.some.injEq] at he2
      subst he2
      simp [elemActive]
    · simp [hEn]
    · intro c2 hc2
      simp only [Option.some.injEq] at hc2
      subst hc2
      rfl
    · intro c2 hc2
      rcases List.mem_append.mp hc2 with hm | hm
      · exact h5 c2 hm
      · simp only [List.mem_singleton] at hm
        subst hm
        rfl

/-- `updateAudioDelay` (with a present element and stream, monitoring
disabled) always leaves an element whose source is attached and which is
paused, and it never touches the permission flag, the enabled flag, the
ghost element list, the analyser or the stream bookkeeping. -/
theorem updateAudioDelay_frame (s : PageState) (r : Bool) (e : AudioElem) (sid : Nat)
    (hA : s.audioElement = some e) (hS : s.stream = some sid)
    (hEn : s.audioEnabled = false) :
    (∃ e2, (updateAudioDelay s r).1.audioElement = some e2 ∧ e2.src.isSome = true ∧
        e2.playing = false) ∧
    (updateAudioDelay s r).1.hasPermission = s.hasPermission ∧
    (updateAudioDelay s r).1.audioEnabled = s.audioEnabled ∧
    (updateAudioDelay s r).1.oldElems = s.oldElems ∧
    (updateAudioDelay s r).1.analyser = s.analyser ∧
    (updateAudioDelay s r).1.micLevel = s.micLevel ∧
    (updateAudioDelay s r).1.canvasBars = s.canvasBars ∧
    (updateAudioDelay s r).1.stream = s.stream ∧
    (updateAudioDelay s r).1.streams = s.streams := by
  rcases hd : s.audioDelay with _ | d
  · rw [updateAudioDelay_zero s r e sid hA hS hd hEn]
    exact ⟨⟨_, rfl, rfl, rfl⟩, rfl, rfl, rfl, rfl, rfl, rfl, rfl, rfl⟩
  rcases hC : s.audioContext with _ | c
  · rw [updateAudioDelay_pos_none s r e sid hA hS hC (by rw [hd]; exact Nat.succ_pos d) hEn]
    exact ⟨⟨_, rfl, rfl, rfl⟩, rfl, rfl, rfl, rfl, rfl, rfl, rfl, rfl⟩
  · by_cases hcl : c.closed = false
    · rw [updateAudioDelay_pos_some s r e sid c hA hS hC hcl
          (by rw [hd]; exact Nat.succ_pos d) hEn]
      exact ⟨⟨_, rfl, rfl, rfl⟩, rfl, rfl, rfl, rfl, rfl, rfl, rfl, rfl⟩
    · have hcl2 : c.closed = true := by
        revert hcl
        rcases c.closed with _ | _ <;> simp
      rw [updateAudioDelay_pos_some_closed s r e sid c hA hS hC hcl2
          (by rw [hd]; exact Nat.succ_pos d) hEn]
      exact ⟨⟨_, rfl, rfl, rfl⟩, rfl, rfl, rfl, rfl, rfl, rfl, rfl, rfl⟩

theorem toggleAudio_noElem (s : PageState) (p : Bool) (h : s.audioElement = none) :
    toggleAudio s p = (s, []) := by
  simp [toggleAudio, h]

theorem toggleAudio_noStream (s : PageState) (p : Bool) (h : s.stream = none) :
    toggleAudio s p = (s, []) := by
  cases hA : s.audioElement <;> simp [toggleAudio, hA, h]

theorem toggleAudio_on (s : PageState) (p : Bool) (e : AudioElem) (sid : Nat)
    (hA : s.audioElement = some e) (hS : s.stream = some sid)
    (hEn : s.audioEnabled = true) :
    toggleAudio s p =
      ({ s with
          audioElement := some { e with playing := false, currentTime := 0, src := none },
          audioEnabled := false },
       [Ev.playbackPause, Ev.playbackDetach]) := by
  simp [toggleAudio, hA, hS, hEn]

theorem toggleAudio_off (s : PageState) (p : Bool) (e : AudioElem) (sid : Nat)
    (e2 : AudioElem) (hA : s.audioElement = some e) (hS : s.stream = some sid)
    (hEn : s.audioEnabled = false)
    (hE2 : (updateAudioDelay s p).1.audioElement = some e2) :
    toggleAudio s p =
      ({ (updateAudioDelay s p).1 with
          audioElement := some { e2 with playing := p }, audioEnabled := p },
       (updateAudioDelay s p).2 ++ [Ev.playbackPlay p]) := by
  simp [toggleAudio, hA, hS, hEn, hE2]

theorem inv_toggleAudio (s : PageState) (playOk : Bool) (hPerm : s.hasPermission = true)
    (h : Inv s) : Inv (toggleAudio s playOk).1 := by
  obtain ⟨h1, h2, h3, h4, h5, h6, h7⟩ := h
  rcases hA : s.audioElement with _ | e
  · rw [toggleAudio_noElem s playOk hA]
    exact ⟨h1, h2, h3, h4, h5, h6, h7⟩
  rcases hS : s.stream with _ | sid
  · rw [toggleAudio_noStream s playOk hS]
    exact ⟨h1, h2, h3, h4, h5, h6, h7⟩
  by_cases hEn : s.audioEnabled = true
  · rw [toggleAudio_on s playOk e sid hA hS hEn]
    refine ⟨h1, ?_, ?_, h4, h5, h6, h7⟩
    · intro _ e2 he2
      simp only [Option.some.injEq] at he2
      subst he2
      simp [elemActive]
    · simp
  · have hEn2 : s.audioEnabled = false := by
      revert hEn
      rcases s.audioEnabled with _ | _ <;> simp
    obtain ⟨⟨e2, hE2, hSrc2, hPl2⟩, hF1, hF2, hF3, hF4, hF5, hF6, hF7, hF8⟩ :=
      updateAudioDelay_frame s playOk e sid hA hS hEn2
    rw [toggleAudio_off s playOk e sid e2 hA hS hEn2 hE2]
    obtain ⟨g1, g2, g3, g4, g5, g6, g7⟩ :=
      inv_updateAudioDelay s playOk hEn2 ⟨h1, h2, h3, h4, h5, h6, h7⟩
    refine ⟨g1, ?_, ?_, g4, g5, g6, g7⟩
    · intro hp
      rw [hF1, hPerm] at hp
      cases hp
    · intro hon
      have hpl : playOk = true := hon
      refine ⟨{ e2 with playing := playOk }, rfl, ?_⟩
      simp [elemActive, hpl]
      simpa using hSrc2

theorem requestPermissions_fail (s : PageState) (errName : String) (playOk : Bool) :
    requestPermissions s false errName playOk =
      ({ s with errorMessage := getErrorMessage errName, hasPermission := false },
       [Ev.acquireStart, Ev.acquireDone false]) := by
  simp [requestPermissions]

theorem requestPermissions_ok_ctxNone (s : PageState) (errName : String) (playOk : Bool)
    (hc : s.audioContext = none) :
    requestPermissions s true errName playOk =
      ({ s with
          streams := s.streams ++ [true],
          stream := some s.streams.length,
          hasPermission := true,
          errorMessage := "",
          videoElement := s.videoElement.map fun v =>
            { v with src := some (StreamRef.raw s.streams.length) },
          audioElement := some
            { src := some (StreamRef.raw s.streams.length), playing := playOk,
              currentTime := 0, muted := false, volume := (4 : ℚ) / 5 },
          oldElems :=
            match s.audioElement with
            | some e => s.oldElems ++ [e]
            | none => s.oldElems,
          audioEnabled := playOk,
          audioContext := some ⟨s.nextCtxId, false, none, true⟩,
          nextCtxId := s.nextCtxId + 1,
          analyser := some s.nextCtxId },
       [Ev.acquireStart, Ev.acquireDone true, Ev.playbackPlay playOk,
        Ev.ctxCreate s.nextCtxId]) := by
  simp [requestPermissions, setupAudioPlayback, setupAudioAnalyser, hc]

theorem requestPermissions_ok_ctxSome (s : PageState) (errName : String) (playOk : Bool)
    (c : Ctx) (hc : s.audioContext = some c) :
    requestPermissions s true errName playOk =
      ({ s with
          streams := s.streams ++ [true],
          stream := some s.streams.length,
          hasPermission := true,
          errorMessage := "",
          videoElement := s.videoElement.map fun v =>
            { v with src := some (StreamRef.raw s.streams.length) },
          audioElement := some
            { src := some (StreamRef.raw s.streams.length), playing := playOk,
              currentTime := 0, muted := false, volume := (4 : ℚ) / 5 },
          oldElems :=
            match s.audioElement with
            | some e => s.oldElems ++ [e]
            | none => s.oldElems,
          audioEnabled := playOk,
          audioContext := some { c with hasAnalyser := true },
          analyser := some c.id },
       [Ev.acquireStart, Ev.acquireDone true, Ev.playbackPlay playOk]) := by
  simp [requestPermissions, setupAudioPlayback, setupAudioAnalyser, hc]

theorem inv_requestPermissions (s : PageState) (acqOk : Bool) (errName : String)
    (playOk : Bool) (hElem : ∀ e, s.audioElement = some e → elemActive e = false)
    (h : Inv s) : Inv (requestPermissions s acqOk errName playOk).1 := by
  obtain ⟨h1, h2, h3, h4, h5, h6, h7⟩ := h
  rcases acqOk with _ | _
  · rw [requestPermissions_fail s errName playOk]
    exact ⟨h1, fun _ => hElem, h3, h4, h5, h6, h7⟩
  · have hOld : ∀ e2 ∈ (match s.audioElement with
        | some e => s.oldElems ++ [e]
        | none => s.oldElems), elemActive e2 = false := by
      rcases hA : s.audioElement with _ | e0
      · exact h1
      · intro e2 he2
        rcases List.mem_append.mp he2 with hm | hm
        · exact h1 e2 hm
        · simp only [List.mem_singleton] at hm
          subst hm
          exact hElem _ hA
    rcases hC : s.audioContext with _ | c
    · rw [requestPermissions_ok_ctxNone s errName playOk hC]
      refine ⟨hOld, ?_, ?_, ?_, h5, ?_, ?_⟩
      · intro hp
        cases hp
      · intro hon
        exact ⟨_, rfl, by simp [elemActive, show playOk = true from hon]⟩
      · intro c2 hc2
        simp only [Option.some.injEq] at hc2
        subst hc2
        rfl
      · intro ha
        cases ha
      · intro sid hsid
        simp only [Option.some.injEq] at hsid
        subst hsid
        simp
    · rw [requestPermissions_ok_ctxSome s errName playOk c hC]
      refine ⟨hOld, ?_, ?_, ?_, h5, ?_, ?_⟩
      · intro hp
        cases hp
      · intro hon
        exact ⟨_, rfl, by simp [elemActive, show playOk = true from hon]⟩
      · intro c2 hc2
        simp only [Option.some.injEq] at hc2
        subst hc2
        simpa using h4 c hC
      · intro ha
        cases ha
      · intro sid hsid
        simp only [Option.some.injEq] at hsid
        subst hsid
        simp

theorem switchMicrophone_noStream (s : PageState) (acqOk : Bool) (errName : String)
    (playOk : Bool) (h : s.stream = none) :
    switchMicrophone s acqOk errName playOk = (s, []) := by
  simp [switchMicrophone, h]

theorem switchMicrophone_someStream (s : PageState) (acqOk : Bool) (errName : String)
    (playOk : Bool) (sid : Nat) (h : s.stream = some sid) :
    switchMicrophone s acqOk errName playOk =
      ((requestPermissions (stopStream s).1 acqOk errName playOk).1,
       (stopStream s).2 ++ (requestPermissions (stopStream s).1 acqOk errName playOk).2) := by
  simp [switchMicrophone, h]

theorem inv_switchMicrophone (s : PageState) (acqOk : Bool) (errName : String)
    (playOk : Bool) (h : Inv s) : Inv (switchMicrophone s acqOk errName playOk).1 := by
  rcases hS : s.stream with _ | sid
  · rw [switchMicrophone_noStream s acqOk errName playOk hS]
    exact h
  · rw [switchMicrophone_someStream s acqOk errName playOk sid hS]
    refine inv_requestPermissions _ acqOk errName playOk ?_ (inv_stopStream s h)
    intro e he
    rw [stopStream_audioElement] at he
    rcases hA : s.audioElement with _ | e0 <;> simp [hA] at he
    rw [← he]
    simp [elemActive]

theorem inv_step (s : PageState) (a : Act) (h : Inv s) : Inv (step s a).1 := by
  cases a with
  | clickEnable acqOk errName playOk =>
      simp only [step]
      split
      · exact h
      · rename_i hp
        refine inv_requestPermissions s acqOk errName playOk ?_ h
        intro e he
        refine h.2.1 ?_ e he
        simpa using hp
  | clickToggle playOk =>
      simp only [step]
      split
      · rename_i hg
        exact inv_toggleAudio s playOk hg.1 h
      · exact h
  | slideDelay d =>
      simp only [step]
      split
      · rename_i hg
        refine inv_updateAudioDelay _ true hg.2.2.1 ?_
        exact inv_of_eq_fields s _ rfl rfl rfl rfl rfl rfl rfl rfl rfl rfl rfl h
      · exact h
  | selectMic mid acqOk errName playOk =>
      simp only [step]
      split
      · refine inv_switchMicrophone _ acqOk errName playOk ?_
        exact inv_of_eq_fields s _ rfl rfl rfl rfl rfl rfl rfl rfl rfl rfl rfl h
      · exact h
  | clickStart =>
      simp only [step]
      split
      · exact inv_startStream s h
      · exact h
  | clickStop =>
      simp only [step]
      split
      · exact inv_stopStream s h
      · exact h
  | tick data =>
      simp only [step]
      exact inv_drawTick s data h
  | bindVideo =>
      simp only [step]
      split
      · exact inv_of_eq_fields s _ rfl rfl rfl rfl rfl rfl rfl rfl rfl rfl rfl h
      · exact h
  | destroy =>
      simp only [step]
      rw [onDestroy_fst]
      exact inv_stopStream s h

theorem inv_mount (mics : List String) (acqOk : Bool) (errName : String) (playOk : Bool)
    (data : List Nat) : Inv (mount initState mics acqOk errName playOk data).1 := by
  unfold mount
  refine inv_drawTick _ data ?_
  refine inv_requestPermissions _ acqOk errName playOk ?_
    (inv_getAudioDevices initState mics inv_initState)
  intro e he
  have : (getAudioDevices initState mics).audioElement = none := by
    unfold getAudioDevices
    split <;> rfl
  rw [this] at he
  cases he

/-- Every reachable state satisfies the invariant. -/
theorem inv_reachable (s : PageState) (h : Reachable s) : Inv s := by
  induction h with
  | init => exact inv_initState
  | mounted mics acqOk errName playOk data => exact inv_mount mics acqOk errName playOk data
  | next s a _ ih => exact inv_step s a ih

/-! ### Remaining shape lemmas (enabled variants) and event classifiers -/

theorem updateAudioDelay_pos_none_enabled (s : PageState) (r : Bool) (e : AudioElem)
    (sid : Nat) (hA : s.audioElement = some e) (hS : s.stream = some sid)
    (hc : s.audioContext = none) (hd : 0 < s.audioDelay) (hEn : s.audioEnabled = true) :
    updateAudioDelay s r =
      ({ s with
          audioContext := some
            ⟨s.nextCtxId + 1, false, some ⟨(s.audioDelay : ℚ) / 1000, true, true, true⟩, false⟩,
          nextCtxId := s.nextCtxId + 2,
          oldCtxs := s.oldCtxs ++ [⟨s.nextCtxId, true, none, false⟩],
          audioElement := some { e with
            playing := r, currentTime := 0,
            src := some (StreamRef.graphOut (s.nextCtxId + 1)) } },
       [Ev.playbackPause, Ev.ctxCreate s.nextCtxId, Ev.ctxClose s.nextCtxId,
        Ev.ctxCreate (s.nextCtxId + 1), Ev.graphBuild (s.nextCtxId + 1) s.audioDelay,
        Ev.playbackPlay r]) := by
  simp [updateAudioDelay, buildDelayGraph, closeGuarded, hA, hS, hc, hd, hEn]

theorem updateAudioDelay_pos_some_closed_enabled (s : PageState) (r : Bool) (e : AudioElem)
    (sid : Nat) (c : Ctx) (hA : s.audioElement = some e) (hS : s.stream = some sid)
    (hc : s.audioContext = some c) (hcl : c.closed = true)
    (hd : 0 < s.audioDelay) (hEn : s.audioEnabled = true) :
    updateAudioDelay s r =
      ({ s with
          audioContext := some
            ⟨s.nextCtxId, false, some ⟨(s.audioDelay : ℚ) / 1000, true, true, true⟩, false⟩,
          nextCtxId := s.nextCtxId + 1,
          oldCtxs := s.oldCtxs ++ [c],
          audioElement := some { e with
            playing := r, currentTime := 0,
            src := some (StreamRef.graphOut s.nextCtxId) } },
       [Ev.playbackPause, Ev.ctxCreate s.nextCtxId,
        Ev.graphBuild s.nextCtxId s.audioDelay, Ev.playbackPlay r]) := by
  simp [updateAudioDelay, buildDelayGraph, closeGuarded, hA, hS, hc, hcl, hd, hEn]

/-- Events that create a context, close a context, or build graph nodes. -/
def isCtxEv : Ev → Bool
  | .ctxCreate _ => true
  | .ctxClose _ => true
  | .graphBuild _ _ => true
  | _ => false

/-! ### Concrete reachable states used as test vectors -/

/-- The state after a successful mount with one microphone: permission
granted, autoplay succeeded (monitoring enabled), analyser attached on
context 0, visualization loop scheduled. -/
def sMounted : PageState :=
  (mount initState ["mic0"] true "" true (List.replicate 128 0)).1

theorem reachable_sMounted : Reachable sMounted :=
  Reachable.mounted ["mic0"] true "" true (List.replicate 128 0)

/-- A post-acquisition state with monitoring currently disabled and the
analyser context still open: reached from `sMounted` by one toggle. -/
def sDisabled : PageState :=
  (step sMounted (Act.clickToggle true)).1

theorem reachable_sDisabled : Reachable sDisabled :=
  Reachable.next sMounted (Act.clickToggle true) reachable_sMounted

/-! ### Claim theorems -/

/-- Claim C8: calling the stop operation when playback is already stopped
never throws (the embedded `stopStream` is a total function) and leaves
every component of the state unchanged: `stopStream` is idempotent on the
state. -/
theorem stopStream_idempotent (s : PageState) :
    (stopStream (stopStream s).1).1 = (stopStream s).1 := by
  rcases hv : s.videoElement with _ | v <;>
    rcases ha : s.audioElement with _ | e <;>
      rcases hs : s.stream with _ | sid <;>
        simp [stopStream, hv, ha, hs, List.set_set]

/-- Claim C10: when the audio element or the media stream has not been
created, `toggleAudio` is a complete no-op: the state (every field) and
the event trace are unchanged. -/
theorem toggleAudio_noop_unready (s : PageState) (playOk : Bool)
    (h : s.audioElement = none ∨ s.stream = none) :
    toggleAudio s playOk = (s, []) := by
  rcases h with h | h
  · exact toggleAudio_noElem s playOk h
  · exact toggleAudio_noStream s playOk h

theorem toggleAudio_noop_unready_witness :
    (initState.audioElement = none ∨ initState.stream = none) ∧
    toggleAudio initState true = (initState, []) :=
  ⟨Or.inl rfl, toggleAudio_noop_unready initState true (Or.inl rfl)⟩

/-- Claim C9: in every reachable state with no analyser attached, a tick
of the visualization callback leaves the state untouched, and the
observable frame is zero: the level is 0 and every drawn bar is 0 (the
callback returns before drawing, and such states never carry a stale
nonzero level or stale bars). -/
theorem unattached_analyser_zero_frame (s : PageState) (data : List Nat)
    (h : Reachable s) (hA : s.analyser = none) :
    drawTick s data = s ∧ (drawTick s data).micLevel = 0 ∧
    (∀ b ∈ (drawTick s data).canvasBars, b = 0) := by
  have h6 := (inv_reachable s h).2.2.2.2.2.1
  refine ⟨drawTick_none s data hA, ?_, ?_⟩ <;> rw [drawTick_none s data hA]
  · exact (h6 hA).1
  · exact (h6 hA).2

theorem unattached_analyser_zero_frame_witness :
    (initState.analyser = none) ∧
    drawTick initState [7, 7, 7] = initState ∧
    (drawTick initState [7, 7, 7]).micLevel = 0 ∧
    (∀ b ∈ (drawTick initState [7, 7, 7]).canvasBars, b = 0) :=
  ⟨rfl, unattached_analyser_zero_frame initState [7, 7, 7] Reachable.init rfl⟩

/-- Sanity check that `acqContinue` is exactly `requestPermissions` minus
the acquisition request: the serialized operation is the request event
followed by the continuation. -/
theorem requestPermissions_eq_continue (s : PageState) (acqOk : Bool) (errName : String)
    (playOk : Bool) :
    requestPermissions s acqOk errName playOk =
      ((acqContinue s acqOk errName playOk).1,
       Ev.acquireStart :: (acqContinue s acqOk errName playOk).2) := by
  rcases acqOk with _ | _ <;> simp [requestPermissions, acqContinue]

/-- The overlapping-enable interleaving: the `onMount` auto-request fires,
the user clicks the still-rendered permission button while that
acquisition is pending (`hasPermission` is only set in the continuation),
and then both `getUserMedia` continuations resolve successfully. -/
def sRace : AsyncState :=
  (astep (astep (astep (astep ⟨initState, 0⟩ AsyncAct.enableRequest).1
        AsyncAct.enableRequest).1
      (AsyncAct.acqResolve true "" true)).1
    (AsyncAct.acqResolve true "" true)).1

/-- Claim C1 counterexample: two successive permission/enable requests
without a disable — the second issued while the first acquisition is
pending, which the page admits since the enable button stays live until a
continuation sets `hasPermission` — end in a reachable state with TWO
active playback instances: the first audio element is dropped without
ever being paused and keeps playing its never-stopped stream beside the
new one.  This refutes the claim that every such sequence yields exactly
one active playback instance. -/
theorem double_enable_two_playbacks :
    AsyncReachable sRace ∧
    sRace.page.audioEnabled = true ∧
    activeCount sRace.page = 2 ∧
    ¬ activeCount sRace.page ≤ 1 :=
  ⟨AsyncReachable.next _ _ (AsyncReachable.next _ _ (AsyncReachable.next _ _
      (AsyncReachable.next _ _ AsyncReachable.init))),
   by decide, by decide, by decide⟩

/-- Claim C1 (amended): provided permission/enable requests are serialized
(no request is issued while an earlier acquisition is still pending —
the `Reachable` machine, where each request runs to completion), every
reachable state has at most one active playback instance (an audio
element that is playing with a stream attached), counting every element
ever created, and exactly one while monitoring is enabled: enabling twice
in a row without a disable then yields exactly one active audible path.
Without that proviso the claim fails (`double_enable_two_playbacks`). -/
theorem single_active_playback (s : PageState) (h : Reachable s) :
    activeCount s ≤ 1 ∧ (s.audioEnabled = true → activeCount s = 1) := by
  obtain ⟨h1, _, h3, _, _, _, _⟩ := inv_reachable s h
  have hz : s.oldElems.countP elemActive = 0 := by
    refine List.countP_eq_zero.mpr ?_
    intro e he
    simp [h1 e he]
  constructor
  · unfold activeCount
    rw [hz]
    rcases s.audioElement with _ | e
    · simp
    · by_cases hae : elemActive e = true <;> simp [hae]
  · intro hEn
    obtain ⟨e, hE, hAct⟩ := h3 hEn
    unfold activeCount
    rw [hz, hE]
    simp [hAct]

theorem single_active_playback_witness :
    activeCount sMounted ≤ 1 ∧ (sMounted.audioEnabled = true → activeCount sMounted = 1) :=
  single_active_playback sMounted reachable_sMounted

/-- Claim C2: while monitoring is enabled, changing the delay from 0 to
`d` in (0,1000] and running the delay-update operation rebuilds the audio
graph with the new delay (`d`/1000 seconds) in a fresh context, restarts
playback (pause followed by a successful play), leaves the enabled flag
true, and performs exactly one context close, followed by the build of the
single new context. -/
theorem delay_change_while_enabled (s : PageState) (e : AudioElem) (sid : Nat) (c : Ctx)
    (d : Nat) (hA : s.audioElement = some e) (hS : s.stream = some sid)
    (hC : s.audioContext = some c) (hcl : c.closed = false)
    (hEn : s.audioEnabled = true) (hPrev : s.audioDelay = 0)
    (hd : 0 < d) (hd2 : d ≤ 1000) :
    (updateAudioDelay { s with audioDelay := d } true).1.audioEnabled = true ∧
    (updateAudioDelay { s with audioDelay := d } true).1.audioElement =
      some { e with playing := true, currentTime := 0,
                    src := some (StreamRef.graphOut s.nextCtxId) } ∧
    (updateAudioDelay { s with audioDelay := d } true).1.audioContext =
      some ⟨s.nextCtxId, false, some ⟨(d : ℚ) / 1000, true, true, true⟩, false⟩ ∧
    (updateAudioDelay { s with audioDelay := d } true).2 =
      [Ev.playbackPause, Ev.ctxClose c.id, Ev.ctxCreate s.nextCtxId,
       Ev.graphBuild s.nextCtxId d, Ev.playbackPlay true] ∧
    ((updateAudioDelay { s with audioDelay := d } true).2.countP isCtxCloseEv) = 1 := by
  rw [updateAudioDelay_pos_some_enabled { s with audioDelay := d } true e sid c hA hS hC
      hcl hd hEn]
  refine ⟨hEn, rfl, rfl, rfl, ?_⟩
  simp [List.countP_cons, isCtxCloseEv]

theorem delay_change_while_enabled_witness :
    (updateAudioDelay { sMounted with audioDelay := 300 } true).1.audioEnabled = true ∧
    (updateAudioDelay { sMounted with audioDelay := 300 } true).1.audioElement =
      some ⟨some (StreamRef.graphOut 1), true, 0, false, (4 : ℚ) / 5⟩ ∧
    (updateAudioDelay { sMounted with audioDelay := 300 } true).1.audioContext =
      some ⟨1, false, some ⟨(300 : ℚ) / 1000, true, true, true⟩, false⟩ ∧
    (updateAudioDelay { sMounted with audioDelay := 300 } true).2 =
      [Ev.playbackPause, Ev.ctxClose 0, Ev.ctxCreate 1, Ev.graphBuild 1 300,
       Ev.playbackPlay true] ∧
    ((updateAudioDelay { sMounted with audioDelay := 300 } true).2.countP isCtxCloseEv) = 1 :=
  delay_change_while_enabled sMounted
    ⟨some (StreamRef.raw 0), true, 0, false, (4 : ℚ) / 5⟩ 0 ⟨0, false, none, true⟩ 300
    rfl rfl rfl rfl rfl rfl (by decide) (by decide)

/-- Claim C5: with an element and a raw stream present, the delay-update
build step satisfies: for delay 0 the playable output attached to the
element is the raw stream itself and no context is created, closed or
populated (identity passthrough); for delay > 0 the element is attached to
the output of a graph built in a live context whose delay stage is
delayMs/1000 seconds and whose three connections source→delay,
delay→destination and direct source→destination all exist (delayed and
direct path feed the same output). -/
theorem delay_graph_build_semantics (s : PageState) (e : AudioElem) (sid : Nat)
    (hA : s.audioElement = some e) (hS : s.stream = some sid) :
    (s.audioDelay = 0 →
       (∃ e2, (updateAudioDelay s true).1.audioElement = some e2 ∧
          e2.src = some (StreamRef.raw sid)) ∧
       (updateAudioDelay s true).1.audioContext = s.audioContext ∧
       (updateAudioDelay s true).1.oldCtxs = s.oldCtxs ∧
       (updateAudioDelay s true).1.nextCtxId = s.nextCtxId ∧
       (∀ ev ∈ (updateAudioDelay s true).2, isCtxEv ev = false)) ∧
    (0 < s.audioDelay →
       ∃ cid e2,
         (updateAudioDelay s true).1.audioContext =
           some ⟨cid, false, some ⟨(s.audioDelay : ℚ) / 1000, true, true, true⟩, false⟩ ∧
         (updateAudioDelay s true).1.audioElement = some e2 ∧
         e2.src = some (StreamRef.graphOut cid)) := by
  constructor
  · intro hd
    by_cases hEn : s.audioEnabled = true
    · rw [updateAudioDelay_zero_enabled s true e sid hA hS hd hEn]
      exact ⟨⟨_, rfl, rfl⟩, rfl, rfl, rfl, by simp [isCtxEv]⟩
    · have hEn2 : s.audioEnabled = false := by
        revert hEn
        rcases s.audioEnabled with _ | _ <;> simp
      rw [updateAudioDelay_zero s true e sid hA hS hd hEn2]
      exact ⟨⟨_, rfl, rfl⟩, rfl, rfl, rfl, by simp [isCtxEv]⟩
  · intro hd
    by_cases hEn : s.audioEnabled = true
    · rcases hC : s.audioContext with _ | c
      · rw [updateAudioDelay_pos_none_enabled s true e sid hA hS hC hd hEn]
        exact ⟨_, _, rfl, rfl, rfl⟩
      · by_cases hcl : c.closed = true
        · rw [updateAudioDelay_pos_some_closed_enabled s true e sid c hA hS hC hcl hd hEn]
          exact ⟨_, _, rfl, rfl, rfl⟩
        · have hcl2 : c.closed = false := by
            revert hcl
            rcases c.closed with _ | _ <;> simp
          rw [updateAudioDelay_pos_some_enabled s true e sid c hA hS hC hcl2 hd hEn]
          exact ⟨_, _, rfl, rfl, rfl⟩
    · have hEn2 : s.audioEnabled = false := by
        revert hEn
        rcases s.audioEnabled with _ | _ <;> simp
      rcases hC : s.audioContext with _ | c
      · rw [updateAudioDelay_pos_none s true e sid hA hS hC hd hEn2]
        exact ⟨_, _, rfl, rfl, rfl⟩
      · by_cases hcl : c.closed = true
        · rw [updateAudioDelay_pos_some_closed s true e sid c hA hS hC hcl hd hEn2]
          exact ⟨_, _, rfl, rfl, rfl⟩
        · have hcl2 : c.closed = false := by
            revert hcl
            rcases c.closed with _ | _ <;> simp
          rw [updateAudioDelay_pos_some s true e sid c hA hS hC hcl2 hd hEn2]
          exact ⟨_, _, rfl, rfl, rfl⟩

theorem delay_graph_build_semantics_witness :
    ((∃ e2, (updateAudioDelay sMounted true).1.audioElement = some e2 ∧
        e2.src = some (StreamRef.raw 0)) ∧
     (updateAudioDelay sMounted true).1.audioContext = sMounted.audioContext ∧
     (updateAudioDelay sMounted true).1.oldCtxs = sMounted.oldCtxs ∧
     (updateAudioDelay sMounted true).1.nextCtxId = sMounted.nextCtxId ∧
     (∀ ev ∈ (updateAudioDelay sMounted true).2, isCtxEv ev = false)) ∧
    (∃ cid e2,
       (updateAudioDelay { sMounted with audioDelay := 250 } true).1.audioContext =
         some ⟨cid, false, some ⟨(250 : ℚ) / 1000, true, true, true⟩, false⟩ ∧
       (updateAudioDelay { sMounted with audioDelay := 250 } true).1.audioElement = some e2 ∧
       e2.src = some (StreamRef.graphOut cid)) :=
  ⟨(delay_graph_build_semantics sMounted
      ⟨some (StreamRef.raw 0), true, 0, false, (4 : ℚ) / 5⟩ 0 rfl rfl).1 rfl,
   (delay_graph_build_semantics { sMounted with audioDelay := 250 }
      ⟨some (StreamRef.raw 0), true, 0, false, (4 : ℚ) / 5⟩ 0 rfl rfl).2 (by decide)⟩

/-- Claim C6: when the asynchronous playback start is rejected, the
enabled flag ends false and the element ends not playing, both for the
toggle-enable path and for the initial `setupAudioPlayback` path inside a
successful permission request; the stream handle is untouched, so enabling
can be retried (and no exception escapes: both embedded handlers are total
functions, matching the `.catch` handlers in the source). -/
theorem autoplay_blocked_leaves_disabled :
    (∀ (s : PageState) (e : AudioElem) (sid : Nat),
        s.audioElement = some e → s.stream = some sid → s.audioEnabled = false →
        (toggleAudio s false).1.audioEnabled = false ∧
        (∃ e2, (toggleAudio s false).1.audioElement = some e2 ∧ e2.playing = false) ∧
        (toggleAudio s false).1.stream = s.stream) ∧
    (∀ (s : PageState) (errName : String),
        (requestPermissions s true errName false).1.audioEnabled = false ∧
        (∃ e2, (requestPermissions s true errName false).1.audioElement = some e2 ∧
           e2.playing = false)) := by
  constructor
  · intro s e sid hA hS hEn
    obtain ⟨⟨e2, hE2, hSrc2, hPl2⟩, hF1, hF2, hF3, hF4, hF5, hF6, hF7, hF8⟩ :=
      updateAudioDelay_frame s false e sid hA hS hEn
    rw [toggleAudio_off s false e sid e2 hA hS hEn hE2]
    exact ⟨rfl, ⟨_, rfl, rfl⟩, hF7⟩
  · intro s errName
    rcases hC : s.audioContext with _ | c
    · rw [requestPermissions_ok_ctxNone s errName false hC]
      exact ⟨rfl, ⟨_, rfl, rfl⟩⟩
    · rw [requestPermissions_ok_ctxSome s errName false c hC]
      exact ⟨rfl, ⟨_, rfl, rfl⟩⟩

theorem autoplay_blocked_leaves_disabled_witness :
    ((toggleAudio sDisabled false).1.audioEnabled = false ∧
     (∃ e2, (toggleAudio sDisabled false).1.audioElement = some e2 ∧
        e2.playing = false) ∧
     (toggleAudio sDisabled false).1.stream = sDisabled.stream) ∧
    ((requestPermissions initState true "NotAllowedError" false).1.audioEnabled = false ∧
     (∃ e2, (requestPermissions initState true "NotAllowedError" false).1.audioElement =
        some e2 ∧ e2.playing = false)) :=
  ⟨autoplay_blocked_leaves_disabled.1 sDisabled
      ⟨none, false, 0, false, (4 : ℚ) / 5⟩ 0 rfl rfl rfl,
   autoplay_blocked_leaves_disabled.2 initState "NotAllowedError"⟩

/-- Claim C7: a device switch with no acquired stream does nothing at all;
with a stream, its event trace is exactly the teardown trace followed by
the acquisition trace — the teardown part contains no acquisition event,
the acquisition part begins with the acquisition request, and at the
moment acquisition begins the old stream tracks are stopped, playback is
stopped and detached, and the context handle is released.  Old-stream
cleanup therefore never interleaves with new-stream setup. -/
theorem device_switch_cleanup_before_acquisition :
    (∀ (s : PageState) (acqOk : Bool) (errName : String) (playOk : Bool),
        s.stream = none → switchMicrophone s acqOk errName playOk = (s, [])) ∧
    (∀ (s : PageState) (sid : Nat) (acqOk : Bool) (errName : String) (playOk : Bool),
        s.stream = some sid → sid < s.streams.length →
        (switchMicrophone s acqOk errName playOk).2 =
          (stopStream s).2 ++ (requestPermissions (stopStream s).1 acqOk errName playOk).2 ∧
        (∀ ev ∈ (stopStream s).2, isAcquireEv ev = false) ∧
        (requestPermissions (stopStream s).1 acqOk errName playOk).2.head? =
          some Ev.acquireStart ∧
        (stopStream s).1.streams.getD sid true = false ∧
        (∀ e2, (stopStream s).1.audioElement = some e2 →
            e2.playing = false ∧ e2.src = none) ∧
        (stopStream s).1.audioContext = none) := by
  constructor
  · exact fun s a en p h => switchMicrophone_noStream s a en p h
  · intro s sid acqOk errName playOk hS hb
    refine ⟨?_, ?_, ?_, ?_, ?_, rfl⟩
    · rw [switchMicrophone_someStream s acqOk errName playOk sid hS]
    · intro ev hev
      cases ev <;> simp only [isAcquireEv] <;>
        (revert hev
         rcases hv : s.videoElement with _ | v <;>
           rcases ha : s.audioElement with _ | e <;>
             rcases hc : s.audioContext with _ | c <;>
               simp [stopStream, hv, ha, hS, hc])
    · rcases acqOk with _ | _
      · rw [requestPermissions_fail]
        rfl
      · rw [requestPermissions_ok_ctxNone _ errName playOk (stopStream_audioContext s)]
        rfl
    · rw [stopStream_streams, hS]
      simp [List.getD_eq_getElem?_getD, List.getElem?_set_self', hb]
    · intro e2 he2
      rw [stopStream_audioElement] at he2
      rcases ha : s.audioElement with _ | e <;> simp [ha] at he2
      rw [← he2]
      exact ⟨rfl, rfl⟩

theorem device_switch_cleanup_before_acquisition_witness :
    switchMicrophone initState true "" true = (initState, []) ∧
    ((switchMicrophone sMounted true "" true).2 =
       (stopStream sMounted).2 ++
         (requestPermissions (stopStream sMounted).1 true "" true).2 ∧
     (∀ ev ∈ (stopStream sMounted).2, isAcquireEv ev = false) ∧
     (requestPermissions (stopStream sMounted).1 true "" true).2.head? =
       some Ev.acquireStart ∧
     (stopStream sMounted).1.streams.getD 0 true = false ∧
     (∀ e2, (stopStream sMounted).1.audioElement = some e2 →
         e2.playing = false ∧ e2.src = none) ∧
     (stopStream sMounted).1.audioContext = none) :=
  ⟨device_switch_cleanup_before_acquisition.1 initState true "" true rfl,
   device_switch_cleanup_before_acquisition.2 sMounted 0 true "" true rfl (by decide)⟩

/-- Claim C4 counterexample: from the reachable state `sMounted` (mounted
with autoplay granted), teardown emits playback stop, then the track stop,
then the context close — the graph release comes after the track stop, not
before it as claimed — and the analyser handle is never released (it still
points at context 0 after teardown). -/
theorem teardown_claimed_order_refuted :
    Reachable sMounted ∧
    (onDestroy sMounted).2 =
      [Ev.playbackPause, Ev.playbackDetach, Ev.trackStop 0, Ev.ctxClose 0,
       Ev.cancelAnim] ∧
    closeBeforeStops (onDestroy sMounted).2 = false ∧
    sMounted.analyser = some 0 ∧
    (onDestroy sMounted).1.analyser = some 0 :=
  ⟨reachable_sMounted, by decide, by decide, by decide, by decide⟩

/-- Claim C4 (amended): teardown, from any state with all resources
present, performs its releases in this order: pause and detach the video,
stop playback (pause, reset, detach the audio element), stop all
MediaSource tracks, close the processing context, halt the display refresh
loop — each exactly once (the trace below lists each release once); the
analyser handle is never separately released, and afterwards the context
handle is cleared and monitoring is off. -/
theorem teardown_release_order (s : PageState) (v : VideoElem) (e : AudioElem) (sid : Nat)
    (c : Ctx) (hv : s.videoElement = some v) (he : s.audioElement = some e)
    (hs : s.stream = some sid) (hc : s.audioContext = some c)
    (ha : s.animationFrame = true) :
    (onDestroy s).2 =
      [Ev.videoPause, Ev.playbackPause, Ev.playbackDetach, Ev.trackStop sid,
       Ev.ctxClose c.id, Ev.cancelAnim] ∧
    (onDestroy s).1.analyser = s.analyser ∧
    (onDestroy s).1.audioContext = none ∧
    (onDestroy s).1.audioEnabled = false := by
  refine ⟨?_, ?_, ?_, ?_⟩
  · simp [onDestroy, stopStream, hv, he, hs, hc, ha]
  · rw [onDestroy_fst, stopStream_analyser]
  · rw [onDestroy_fst, stopStream_audioContext]
  · rw [onDestroy_fst, stopStream_audioEnabled]

/-- A reachable state like `sMounted` but with the video element bound. -/
def sFull : PageState :=
  (step sMounted Act.bindVideo).1

theorem teardown_release_order_witness :
    (onDestroy sFull).2 =
      [Ev.videoPause, Ev.playbackPause, Ev.playbackDetach, Ev.trackStop 0,
       Ev.ctxClose 0, Ev.cancelAnim] ∧
    (onDestroy sFull).1.analyser = sFull.analyser ∧
    (onDestroy sFull).1.audioContext = none ∧
    (onDestroy sFull).1.audioEnabled = false :=
  teardown_release_order sFull ⟨none, false⟩
    ⟨some (StreamRef.raw 0), true, 0, false, (4 : ℚ) / 5⟩ 0 ⟨0, false, none, true⟩
    rfl rfl rfl rfl rfl

theorem liveCtxCount_stopStream (s : PageState)
    (h5 : ∀ c ∈ s.oldCtxs, c.closed = true) :
    liveCtxCount (stopStream s).1 = 0 := by
  unfold liveCtxCount
  rw [stopStream_audioContext, stopStream_oldCtxs]
  refine Eq.trans (Nat.zero_add _) ?_
  refine List.countP_eq_zero.mpr ?_
  intro c hc
  rcases List.mem_append.mp hc with hm | hm
  · simp [h5 c hm]
  · rcases hC : s.audioContext with _ | c0 <;> rw [hC] at hm <;> simp at hm
    rw [hm]
    simp

/-- Claim C3: (i) when a graph was previously built (an open context is
referenced), the delay-update for a positive delay closes that context
before it creates the new one — the close event precedes the create and
build events in its trace; (ii) closing an already-closed context is an
idempotent no-op (the guarded close of the source); (iii) from any
reachable disabled state, building a graph at any delay in [0,1000] and
immediately releasing everything leaves zero live contexts; and (iv) every
reachable state has at most one live context. -/
theorem graph_context_lifecycle :
    (∀ (s : PageState) (e : AudioElem) (sid : Nat) (c : Ctx),
        s.audioElement = some e → s.stream = some sid → s.audioContext = some c →
        c.closed = false → 0 < s.audioDelay → s.audioDelay ≤ 1000 →
        s.audioEnabled = false →
        (updateAudioDelay s true).2 =
          [Ev.playbackPause, Ev.ctxClose c.id, Ev.ctxCreate s.nextCtxId,
           Ev.graphBuild s.nextCtxId s.audioDelay]) ∧
    (∀ c : Ctx, c.closed = true → closeGuarded c = (c, [])) ∧
    (∀ (s : PageState) (d : Nat), Reachable s → s.audioEnabled = false → d ≤ 1000 →
        liveCtxCount (stopStream (updateAudioDelay { s with audioDelay := d } true).1).1 =
          0) ∧
    (∀ s : PageState, Reachable s → liveCtxCount s ≤ 1) := by
  refine ⟨?_, ?_, ?_, ?_⟩
  · intro s e sid c hA hS hC hcl hd hd2 hEn
    rw [updateAudioDelay_pos_some s true e sid c hA hS hC hcl hd hEn]
  · intro c hcl
    simp [closeGuarded, hcl]
  · intro s d hr hEn hd
    have hInv2 : Inv { s with audioDelay := d } :=
      inv_of_eq_fields s _ rfl rfl rfl rfl rfl rfl rfl rfl rfl rfl rfl (inv_reachable s hr)
    have hInv3 := inv_updateAudioDelay { s with audioDelay := d } true hEn hInv2
    exact liveCtxCount_stopStream _ hInv3.2.2.2.2.1
  · intro s hr
    obtain ⟨_, _, _, _, h5, _, _⟩ := inv_reachable s hr
    unfold liveCtxCount
    have hz : s.oldCtxs.countP (fun c => !c.closed) = 0 :=
      List.countP_eq_zero.mpr (by intro c hc; simp [h5 c hc])
    rw [hz]
    rcases s.audioContext with _ | c
    · simp
    · by_cases hcl : c.closed = true <;> simp [hcl]

/-- A disabled state with an open context, an element and a stream, and a
positive pending delay value. -/
def sDelayed : PageState :=
  { sDisabled with audioDelay := 300 }

theorem graph_context_lifecycle_witness :
    (updateAudioDelay sDelayed true).2 =
      [Ev.playbackPause, Ev.ctxClose 0, Ev.ctxCreate 1, Ev.graphBuild 1 300] ∧
    closeGuarded ⟨5, true, none, false⟩ = (⟨5, true, none, false⟩, []) ∧
    liveCtxCount
        (stopStream (updateAudioDelay { initState with audioDelay := 300 } true).1).1 = 0 ∧
    liveCtxCount sMounted ≤ 1 :=
  ⟨graph_context_lifecycle.1 sDelayed ⟨none, false, 0, false, (4 : ℚ) / 5⟩ 0
      ⟨0, false, none, true⟩ rfl rfl rfl rfl (by decide) (by decide) rfl,
   graph_context_lifecycle.2.1 ⟨5, true, none, false⟩ rfl,
   graph_context_lifecycle.2.2.1 initState 300 Reachable.init rfl (by decide),
   graph_context_lifecycle.2.2.2 sMounted reachable_sMounted⟩

end CameraMirror
